import Mathlib

/-!
Verification of the dfelibs pseudorandom number generators
(`dfe/dfe_prng.hpp`) and the dieharder byte-dump example
(`examples/example_prng_dieharder.cpp`).

Machine integers (`uint64_t`) are modelled as `Nat` with explicit
reduction modulo `2 ^ 64` wherever the C++ arithmetic wraps.  A
generator's `operator()` is modelled as a function from the generator
state to a pair (output, updated state).
-/

namespace dfe

/-- Modulus of 64-bit unsigned arithmetic. -/
def U64 : Nat := 2 ^ 64

/-- State of the SplitMix64 generator: a single 64-bit word.
Mirrors `class SplitMix64 { uint64_t m_state; }`. -/
structure SplitMix64 where
  m_state : Nat
deriving DecidableEq

/-- One call of `SplitMix64::operator()`: the state is advanced by the
odd constant `0x9e3779b97f4a7c15` (wrapping), and the advanced state is
mixed by three avalanche rounds to form the output. -/
def SplitMix64.next (g : SplitMix64) : Nat × SplitMix64 :=
  let s := (g.m_state + 0x9e3779b97f4a7c15) % U64
  let z1 := ((s ^^^ (s >>> 30)) * 0xbf58476d1ce4e5b9) % U64
  let z2 := ((z1 ^^^ (z1 >>> 27)) * 0x94d049bb133111eb) % U64
  (z2 ^^^ (z2 >>> 31), ⟨s⟩)

/-- `SplitMix64::min()`. -/
def SplitMix64.min : Nat := 0

/-- `SplitMix64::max()` — `UINT64_MAX`. -/
def SplitMix64.max : Nat := U64 - 1

/-- Run a SplitMix64 generator `n` times, collecting the outputs in
order together with the final state. -/
def SplitMix64.run (g : SplitMix64) : Nat → List Nat × SplitMix64
  | 0 => ([], g)
  | n + 1 =>
    let r := g.next
    let rest := SplitMix64.run r.2 n
    (r.1 :: rest.1, rest.2)

/-- State of the xoshiro256** generator: four 64-bit words.
Mirrors `class Xoshiro256StarStar { uint64_t m_state[4]; }`. -/
structure Xoshiro256StarStar where
  s0 : Nat
  s1 : Nat
  s2 : Nat
  s3 : Nat
deriving DecidableEq

/-- The private helper `Xoshiro256StarStar::rotate_left`:
`(x << k) | (x >> (64 - k))` on 64 bits. -/
def Xoshiro256StarStar.rotate_left (x : Nat) (k : Nat) : Nat :=
  ((x <<< k) % U64) ||| (x >>> (64 - k))

/-- One call of `Xoshiro256StarStar::operator()`: output
`rotate_left(state[1] * 5, 7) * 9` from the pre-update state, then the
xor-shift state update with final rotation by 45. -/
def Xoshiro256StarStar.next (g : Xoshiro256StarStar) : Nat × Xoshiro256StarStar :=
  let z := (Xoshiro256StarStar.rotate_left ((g.s1 * 5) % U64) 7 * 9) % U64
  let t := (g.s1 <<< 17) % U64
  let c2 := g.s2 ^^^ g.s0
  let c3 := g.s3 ^^^ g.s1
  let c1 := g.s1 ^^^ c2
  let c0 := g.s0 ^^^ c3
  let c2t := c2 ^^^ t
  let c3r := Xoshiro256StarStar.rotate_left c3 45
  (z, ⟨c0, c1, c2t, c3r⟩)

/-- The constructor `Xoshiro256StarStar(seed)`: seed a SplitMix64 with
the given seed and fill the four state words with its first four
outputs, in order. -/
def Xoshiro256StarStar.ofSeed (seed : Nat) : Xoshiro256StarStar :=
  let r0 := (SplitMix64.mk seed).next
  let r1 := r0.2.next
  let r2 := r1.2.next
  let r3 := r2.2.next
  ⟨r0.1, r1.1, r2.1, r3.1⟩

/-- `Xoshiro256StarStar::min()`. -/
def Xoshiro256StarStar.min : Nat := 0

/-- `Xoshiro256StarStar::max()` — `UINT64_MAX`. -/
def Xoshiro256StarStar.max : Nat := U64 - 1

/-- Run a xoshiro256** generator `n` times, collecting the outputs in
order together with the final state. -/
def Xoshiro256StarStar.run (g : Xoshiro256StarStar) : Nat → List Nat × Xoshiro256StarStar
  | 0 => ([], g)
  | n + 1 =>
    let r := g.next
    let rest := Xoshiro256StarStar.run r.2 n
    (r.1 :: rest.1, rest.2)

/-- The state reached after `n` calls to `Xoshiro256StarStar::operator()`. -/
def Xoshiro256StarStar.iterState (g : Xoshiro256StarStar) : Nat → Xoshiro256StarStar
  | 0 => g
  | n + 1 => (Xoshiro256StarStar.iterState g n).next.2

end dfe

namespace dfe

/-- C1: one call of SplitMix64's next operation sets the state to
`s + 0x9e3779b97f4a7c15` modulo `2 ^ 64` and returns the three avalanche
rounds applied to that updated value, with logical shifts and modular
64-bit multiplications. -/
theorem splitMix64_next_spec (s : Nat) (hs : s < 2 ^ 64) :
    (SplitMix64.next ⟨s⟩).2.m_state = (s + 0x9e3779b97f4a7c15) % 2 ^ 64 ∧
    (SplitMix64.next ⟨s⟩).1 =
      (let z := (s + 0x9e3779b97f4a7c15) % 2 ^ 64
       let za := ((z ^^^ (z >>> 30)) * 0xbf58476d1ce4e5b9) % 2 ^ 64
       let zb := ((za ^^^ (za >>> 27)) * 0x94d049bb133111eb) % 2 ^ 64
       zb ^^^ (zb >>> 31)) :=
  ⟨rfl, rfl⟩

/-- Witness for C1 at the concrete state 123. -/
theorem splitMix64_next_spec_witness :
    (SplitMix64.next ⟨123⟩).2.m_state = (123 + 0x9e3779b97f4a7c15) % 2 ^ 64 ∧
    (SplitMix64.next ⟨123⟩).1 =
      (let z := (123 + 0x9e3779b97f4a7c15) % 2 ^ 64
       let za := ((z ^^^ (z >>> 30)) * 0xbf58476d1ce4e5b9) % 2 ^ 64
       let zb := ((za ^^^ (za >>> 27)) * 0x94d049bb133111eb) % 2 ^ 64
       zb ^^^ (zb >>> 31)) :=
  splitMix64_next_spec 123 (by norm_num)

/-- C2: one call of Xoshiro256StarStar's next operation returns
`rotate_left(state[1] * 5, 7) * 9` computed from the pre-update state
and performs the xor-shift update with `t = state[1] << 17` and a final
rotation of word 3 by 45, all arithmetic modular 64-bit. -/
theorem xoshiro256_next_spec (a b c d : Nat)
    (ha : a < 2 ^ 64) (hb : b < 2 ^ 64) (hc : c < 2 ^ 64) (hd : d < 2 ^ 64) :
    (Xoshiro256StarStar.next ⟨a, b, c, d⟩).1 =
      (Xoshiro256StarStar.rotate_left ((b * 5) % 2 ^ 64) 7 * 9) % 2 ^ 64 ∧
    (Xoshiro256StarStar.next ⟨a, b, c, d⟩).2 =
      (let t := (b <<< 17) % 2 ^ 64
       let c2 := c ^^^ a
       let c3 := d ^^^ b
       let c1 := b ^^^ c2
       let c0 := a ^^^ c3
       ⟨c0, c1, c2 ^^^ t, Xoshiro256StarStar.rotate_left c3 45⟩) :=
  ⟨rfl, rfl⟩

/-- Witness for C2 at the concrete state (1, 2, 3, 4). -/
theorem xoshiro256_next_spec_witness :
    (Xoshiro256StarStar.next ⟨1, 2, 3, 4⟩).1 =
      (Xoshiro256StarStar.rotate_left ((2 * 5) % 2 ^ 64) 7 * 9) % 2 ^ 64 ∧
    (Xoshiro256StarStar.next ⟨1, 2, 3, 4⟩).2 =
      (let t := ((2 : Nat) <<< 17) % 2 ^ 64
       let c2 := (3 : Nat) ^^^ 1
       let c3 := (4 : Nat) ^^^ 2
       let c1 := (2 : Nat) ^^^ c2
       let c0 := (1 : Nat) ^^^ c3
       ⟨c0, c1, c2 ^^^ t, Xoshiro256StarStar.rotate_left c3 45⟩) :=
  xoshiro256_next_spec 1 2 3 4 (by norm_num) (by norm_num) (by norm_num) (by norm_num)

/-- C3: constructing a Xoshiro256StarStar from seed S yields the state
whose four words are the first four outputs of a SplitMix64 constructed
from S, in order. -/
theorem xoshiro256_seed_expansion (S : Nat) :
    (SplitMix64.run (SplitMix64.mk S) 4).1 =
      [(Xoshiro256StarStar.ofSeed S).s0, (Xoshiro256StarStar.ofSeed S).s1,
       (Xoshiro256StarStar.ofSeed S).s2, (Xoshiro256StarStar.ofSeed S).s3] :=
  rfl

/-- C4: both generators are deterministic functions of the seed — two
generators built from equal seeds and advanced the same number of steps
produce equal output sequences and equal final states. -/
theorem generators_deterministic (S T n : Nat) (h : S = T) :
    SplitMix64.run (SplitMix64.mk S) n = SplitMix64.run (SplitMix64.mk T) n ∧
    Xoshiro256StarStar.run (Xoshiro256StarStar.ofSeed S) n =
      Xoshiro256StarStar.run (Xoshiro256StarStar.ofSeed T) n := by
  subst h
  exact ⟨rfl, rfl⟩

/-- Witness for C4 at seed 123 and two steps. -/
theorem generators_deterministic_witness :
    SplitMix64.run (SplitMix64.mk 123) 2 = SplitMix64.run (SplitMix64.mk 123) 2 ∧
    Xoshiro256StarStar.run (Xoshiro256StarStar.ofSeed 123) 2 =
      Xoshiro256StarStar.run (Xoshiro256StarStar.ofSeed 123) 2 :=
  generators_deterministic 123 123 2 rfl

/-- C5: for both generator types the advertised range is the constants
0 and `2 ^ 64 - 1`, independent of any instance state. -/
theorem min_max_constants :
    SplitMix64.min = 0 ∧ SplitMix64.max = 2 ^ 64 - 1 ∧
    Xoshiro256StarStar.min = 0 ∧ Xoshiro256StarStar.max = 2 ^ 64 - 1 :=
  ⟨rfl, rfl, rfl, rfl⟩

lemma two_pow_split {k : Nat} (hk : k ≤ 64) : (2 : Nat) ^ (64 - k) * 2 ^ k = 2 ^ 64 := by
  rw [← pow_add]
  congr 1
  omega

/-- Arithmetic form of the bitwise rotation: for in-range inputs,
`rotate_left x k` splits `x` at bit `64 - k` and swaps the two parts. -/
lemma rotate_left_eq_arith (x k : Nat) (hx : x < 2 ^ 64) (h0 : 0 < k) (h1 : k < 64) :
    Xoshiro256StarStar.rotate_left x k =
      2 ^ k * (x % 2 ^ (64 - k)) + x / 2 ^ (64 - k) := by
  have hsplit : (2 : Nat) ^ (64 - k) * 2 ^ k = 2 ^ 64 := two_pow_split h1.le
  have hdiv : x / 2 ^ (64 - k) < 2 ^ k := by
    rw [Nat.div_lt_iff_lt_mul (Nat.two_pow_pos (64 - k))]
    rw [Nat.mul_comm] at hsplit
    omega
  rw [Xoshiro256StarStar.rotate_left, U64, Nat.shiftLeft_eq, Nat.shiftRight_eq_div_pow,
    ← hsplit, Nat.mul_mod_mul_right, Nat.mul_add_lt_is_or hdiv,
    Nat.mul_comm (x % 2 ^ (64 - k)) (2 ^ k)]

/-- Rotating left by `k` and then by `64 - k` is the identity on 64-bit
values. -/
lemma rotate_left_rotate_left (x k : Nat) (hx : x < 2 ^ 64) (h0 : 0 < k) (h1 : k < 64) :
    Xoshiro256StarStar.rotate_left (Xoshiro256StarStar.rotate_left x k) (64 - k) = x := by
  have hm0 : 0 < 64 - k := by omega
  have hm1 : 64 - k < 64 := by omega
  have hsplit : (2 : Nat) ^ (64 - k) * 2 ^ k = 2 ^ 64 := two_pow_split h1.le
  have hb : x / 2 ^ (64 - k) < 2 ^ k := by
    rw [Nat.div_lt_iff_lt_mul (Nat.two_pow_pos (64 - k))]
    rw [Nat.mul_comm] at hsplit
    omega
  have ha : x % 2 ^ (64 - k) < 2 ^ (64 - k) := Nat.mod_lt _ (Nat.two_pow_pos _)
  have hy : 2 ^ k * (x % 2 ^ (64 - k)) + x / 2 ^ (64 - k) < 2 ^ 64 := by
    have h1 : 2 ^ k * (x % 2 ^ (64 - k)) + x / 2 ^ (64 - k) < 2 ^ k * (x % 2 ^ (64 - k) + 1) := by
      rw [Nat.mul_add, Nat.mul_one]
      omega
    have h2 : 2 ^ k * (x % 2 ^ (64 - k) + 1) ≤ 2 ^ k * 2 ^ (64 - k) :=
      Nat.mul_le_mul_left _ (by omega)
    have h3 : 2 ^ k * 2 ^ (64 - k) = 2 ^ 64 := by
      rw [Nat.mul_comm]
      exact hsplit
    omega
  rw [rotate_left_eq_arith x k hx h0 h1,
    rotate_left_eq_arith _ (64 - k) hy hm0 hm1]
  have h64 : 64 - (64 - k) = k := by omega
  rw [h64]
  have hmod : (2 ^ k * (x % 2 ^ (64 - k)) + x / 2 ^ (64 - k)) % 2 ^ k = x / 2 ^ (64 - k) := by
    rw [Nat.mul_add_mod, Nat.mod_eq_of_lt hb]
  have hdiv : (2 ^ k * (x % 2 ^ (64 - k)) + x / 2 ^ (64 - k)) / 2 ^ k = x % 2 ^ (64 - k) := by
    rw [Nat.mul_add_div (Nat.two_pow_pos k), Nat.div_eq_of_lt hb, Nat.add_zero]
  rw [hmod, hdiv]
  exact Nat.div_add_mod x (2 ^ (64 - k))

/-- C6: for every 64-bit value and every rotation amount strictly
between 0 and 64, rotating left by `k` and then by `64 - k` returns the
original value. -/
theorem rotate_left_inverse (x k : Nat) (hx : x < 2 ^ 64) (h0 : 0 < k) (h1 : k < 64) :
    Xoshiro256StarStar.rotate_left (Xoshiro256StarStar.rotate_left x k) (64 - k) = x :=
  rotate_left_rotate_left x k hx h0 h1

/-- Witness for C6 at x = 5, k = 7. -/
theorem rotate_left_inverse_witness :
    Xoshiro256StarStar.rotate_left (Xoshiro256StarStar.rotate_left 5 7) (64 - 7) = 5 :=
  rotate_left_inverse 5 7 (by norm_num) (by norm_num) (by norm_num)

lemma iterState_zero_fixed :
    ∀ m, Xoshiro256StarStar.iterState ⟨0, 0, 0, 0⟩ m = ⟨0, 0, 0, 0⟩ := by
  intro m
  induction m with
  | zero => rfl
  | succ m ih =>
    show (Xoshiro256StarStar.iterState _ m).next.2 = _
    rw [ih]
    decide

/-- C7: a generator whose four state words are all zero keeps the
all-zero state and outputs 0 at every subsequent call. -/
theorem xoshiro256_zero_state_absorbing (g : Xoshiro256StarStar)
    (hg : g = ⟨0, 0, 0, 0⟩) (n : Nat) :
    Xoshiro256StarStar.iterState g n = ⟨0, 0, 0, 0⟩ ∧
      (Xoshiro256StarStar.iterState g n).next.1 = 0 := by
  subst hg
  refine ⟨iterState_zero_fixed n, ?_⟩
  rw [iterState_zero_fixed n]
  decide

/-- Witness for C7 after three calls from the all-zero state. -/
theorem xoshiro256_zero_state_absorbing_witness :
    Xoshiro256StarStar.iterState ⟨0, 0, 0, 0⟩ 3 = ⟨0, 0, 0, 0⟩ ∧
      (Xoshiro256StarStar.iterState ⟨0, 0, 0, 0⟩ 3).next.1 = 0 :=
  xoshiro256_zero_state_absorbing ⟨0, 0, 0, 0⟩ rfl 3

end dfe

namespace dfe

def Xoshiro256StarStar.unshear (y : Nat) : Nat :=
  y ^^^ ((y <<< 17) % U64) ^^^ ((y <<< 34) % U64) ^^^ ((y <<< 51) % U64)

lemma testBit_high {x i : Nat} (hx : x < 2 ^ 64) (hi : 64 ≤ i) : x.testBit i = false :=
  Nat.testBit_lt_two_pow (lt_of_lt_of_le hx (Nat.pow_le_pow_right (by norm_num) hi))

lemma unshear_lt {y : Nat} (hy : y < 2 ^ 64) : Xoshiro256StarStar.unshear y < 2 ^ 64 := by
  unfold Xoshiro256StarStar.unshear U64
  exact Nat.xor_lt_two_pow (Nat.xor_lt_two_pow (Nat.xor_lt_two_pow hy
    (Nat.mod_lt _ (Nat.two_pow_pos 64))) (Nat.mod_lt _ (Nat.two_pow_pos 64)))
    (Nat.mod_lt _ (Nat.two_pow_pos 64))

lemma unshear_shear (b : Nat) (hb : b < 2 ^ 64) :
    Xoshiro256StarStar.unshear (b ^^^ ((b <<< 17) % U64)) = b := by
  apply Nat.eq_of_testBit_eq
  intro i
  unfold Xoshiro256StarStar.unshear U64
  rcases Nat.lt_or_ge i 64 with hi | hi
  · simp only [Nat.testBit_xor, Nat.testBit_mod_two_pow, Nat.testBit_shiftLeft,
      ge_iff_le, Nat.sub_sub]
    interval_cases i <;>
      simp [Bool.xor_assoc, Bool.xor_left_comm, Bool.xor_comm]
  · have h64 : ¬ (i < 64) := by omega
    simp only [Nat.testBit_xor, Nat.testBit_mod_two_pow, Nat.testBit_shiftLeft]
    simp [h64, testBit_high hb hi]

end dfe

namespace dfe

/-- The state-transition part of one call of
`Xoshiro256StarStar::operator()`. -/
def Xoshiro256StarStar.stepState (g : Xoshiro256StarStar) : Xoshiro256StarStar :=
  g.next.2

/-- A state is valid when every word is a 64-bit value. -/
def Xoshiro256StarStar.valid (g : Xoshiro256StarStar) : Prop :=
  g.s0 < U64 ∧ g.s1 < U64 ∧ g.s2 < U64 ∧ g.s3 < U64

instance (g : Xoshiro256StarStar) : Decidable g.valid :=
  decidable_of_iff (g.s0 < U64 ∧ g.s1 < U64 ∧ g.s2 < U64 ∧ g.s3 < U64) Iff.rfl

/-- Explicit inverse of the xoshiro256** state transition. -/
def Xoshiro256StarStar.prevState (g : Xoshiro256StarStar) : Xoshiro256StarStar :=
  let d1 := Xoshiro256StarStar.rotate_left g.s3 19
  let b := Xoshiro256StarStar.unshear (g.s1 ^^^ g.s2)
  let c1 := g.s1 ^^^ b
  let a := g.s0 ^^^ d1
  ⟨a, b, c1 ^^^ a, d1 ^^^ b⟩

lemma nat_xor_left_comm (a b c : Nat) : a ^^^ (b ^^^ c) = b ^^^ (a ^^^ c) := by
  rw [← Nat.xor_assoc, Nat.xor_comm a b, Nat.xor_assoc]

lemma nat_xor_cancel_left (a x : Nat) : a ^^^ (a ^^^ x) = x := by
  rw [← Nat.xor_assoc, Nat.xor_self, Nat.zero_xor]

lemma rotate_left_lt {x : Nat} (hx : x < U64) (k : Nat) :
    Xoshiro256StarStar.rotate_left x k < U64 := by
  unfold U64 at hx
  unfold Xoshiro256StarStar.rotate_left U64
  apply Nat.or_lt_two_pow
  · exact Nat.mod_lt _ (Nat.two_pow_pos 64)
  · rw [Nat.shiftRight_eq_div_pow]
    exact lt_of_le_of_lt (Nat.div_le_self _ _) hx

lemma prevState_stepState (g : Xoshiro256StarStar) (hv : g.valid) :
    g.stepState.prevState = g := by
  obtain ⟨a, b, c, d⟩ := g
  obtain ⟨h0, h1, h2, h3⟩ := hv
  have hdb : d ^^^ b < 2 ^ 64 := Nat.xor_lt_two_pow h3 h1
  have hrot : Xoshiro256StarStar.rotate_left
      (Xoshiro256StarStar.rotate_left (d ^^^ b) 45) 19 = d ^^^ b := by
    have h := rotate_left_rotate_left (d ^^^ b) 45 hdb (by norm_num) (by norm_num)
    norm_num at h
    exact h
  simp only [Xoshiro256StarStar.stepState, Xoshiro256StarStar.next,
    Xoshiro256StarStar.prevState]
  rw [hrot]
  have hx1 : (b ^^^ (c ^^^ a)) ^^^ ((c ^^^ a) ^^^ (b <<< 17 % U64)) =
      b ^^^ (b <<< 17 % U64) := by
    simp [Nat.xor_assoc, Nat.xor_comm, nat_xor_left_comm, nat_xor_cancel_left,
      Nat.xor_self, Nat.xor_zero, Nat.zero_xor]
  rw [hx1, unshear_shear b h1]
  simp [Nat.xor_assoc, Nat.xor_comm, nat_xor_left_comm, nat_xor_cancel_left,
    Nat.xor_self, Nat.xor_zero, Nat.zero_xor]

lemma stepState_valid {g : Xoshiro256StarStar} (hv : g.valid) :
    g.stepState.valid := by
  obtain ⟨a, b, c, d⟩ := g
  obtain ⟨h0, h1, h2, h3⟩ := hv
  refine ⟨?_, ?_, ?_, ?_⟩
  · exact Nat.xor_lt_two_pow h0 (Nat.xor_lt_two_pow h3 h1)
  · exact Nat.xor_lt_two_pow h1 (Nat.xor_lt_two_pow h2 h0)
  · exact Nat.xor_lt_two_pow (Nat.xor_lt_two_pow h2 h0) (Nat.mod_lt _ (Nat.two_pow_pos 64))
  · exact rotate_left_lt (Nat.xor_lt_two_pow h3 h1) 45

/-- The set of valid (64-bit) four-word states. -/
abbrev ValidState := {g : Xoshiro256StarStar // g.valid}

/-- State transition restricted to valid states. -/
def Xoshiro256StarStar.stepStateV (s : ValidState) : ValidState :=
  ⟨s.1.stepState, stepState_valid s.2⟩

/-- Valid states coded as quadruples of `Fin U64`. -/
def validStateEquiv : ValidState ≃ (Fin U64 × Fin U64 × Fin U64 × Fin U64) where
  toFun s := (⟨s.1.s0, s.2.1⟩, ⟨s.1.s1, s.2.2.1⟩, ⟨s.1.s2, s.2.2.2.1⟩, ⟨s.1.s3, s.2.2.2.2⟩)
  invFun p := ⟨⟨p.1.1, p.2.1.1, p.2.2.1.1, p.2.2.2.1⟩, p.1.2, p.2.1.2, p.2.2.1.2, p.2.2.2.2⟩
  left_inv s := rfl
  right_inv p := rfl

instance : Finite ValidState := Finite.of_equiv _ validStateEquiv.symm

lemma stepStateV_injective : Function.Injective Xoshiro256StarStar.stepStateV := by
  intro x y h
  have h1 : x.1.stepState = y.1.stepState := congrArg Subtype.val h
  apply Subtype.ext
  rw [← prevState_stepState x.1 x.2, ← prevState_stepState y.1 y.2, h1]

/-- The all-zero valid state. -/
def zeroV : ValidState := ⟨⟨0, 0, 0, 0⟩, by decide⟩

lemma stepStateV_zero : Xoshiro256StarStar.stepStateV zeroV = zeroV := by
  apply Subtype.ext
  decide

/-- Iterated state transition on valid states. -/
def iterStateV : Nat → ValidState → ValidState
  | 0, s => s
  | n + 1, s => Xoshiro256StarStar.stepStateV (iterStateV n s)

lemma iterStateV_ne_zero (s : ValidState) (hs : s ≠ zeroV) (n : Nat) :
    iterStateV n s ≠ zeroV := by
  induction n with
  | zero => exact hs
  | succ n ih =>
    intro h
    apply ih
    apply stepStateV_injective
    rw [stepStateV_zero]
    exact h

/-- C9: the xoshiro256** state transition of the next operation is a
bijection on the 4-word 64-bit states, and consequently a state that is
not all-zero stays not all-zero under every number of next calls. -/
theorem xoshiro256_step_bijective :
    Function.Bijective Xoshiro256StarStar.stepStateV ∧
    ∀ (s : ValidState) (n : Nat), s ≠ zeroV → iterStateV n s ≠ zeroV := by
  constructor
  · exact Finite.injective_iff_bijective.mp stepStateV_injective
  · intro s n hs
    exact iterStateV_ne_zero s hs n

/-- A concrete non-zero valid state. -/
def oneV : ValidState := ⟨⟨1, 0, 0, 0⟩, by decide⟩

/-- Witness for C9 at the state (1, 0, 0, 0) and one step. -/
theorem xoshiro256_step_bijective_witness :
    Function.Bijective Xoshiro256StarStar.stepStateV ∧ iterStateV 1 oneV ≠ zeroV :=
  ⟨xoshiro256_step_bijective.1, xoshiro256_step_bijective.2 oneV 1 (by decide)⟩

end dfe

namespace dfe

/-- Registered generator names of the dieharder example, in registry
order. -/
def registry : List String := ["splitmix64", "xoshiro256**"]

/-- Observable outcome of `main` in the dieharder example: the process
exit code and whether a registered generator was selected and run. -/
structure MainResult where
  exitCode : Nat
  ranGenerator : Bool
deriving DecidableEq

/-- Control flow of `main` in `example_prng_dieharder.cpp`: fewer than
two or more than three program arguments return `EXIT_FAILURE` after a
usage message; a registered generator name runs the generator and
returns `EXIT_SUCCESS`; any other name prints an "unknown rng"
diagnostic and falls through to `return EXIT_SUCCESS`. -/
def mainResult (argc : Nat) (rngName : String) : MainResult :=
  if argc < 3 ∨ 4 < argc then ⟨1, false⟩
  else if registry.contains rngName then ⟨0, true⟩
  else ⟨0, false⟩

/-- C8: evaluation of the example's exit logic at the failing input —
with a well-formed argument count and the unregistered generator name
"nosuchrng", no generator is run, yet the process exit code is the
success code 0 rather than an error status; a wrong argument count does
return the failure code 1. -/
theorem main_unknown_rng_exit_code :
    mainResult 3 "nosuchrng" = ⟨0, false⟩ ∧
      registry.contains "nosuchrng" = false ∧
      mainResult 3 "splitmix64" = ⟨0, true⟩ ∧
      mainResult 2 "splitmix64" = ⟨1, false⟩ := by
  refine ⟨?_, ?_, ?_, ?_⟩ <;> rfl

/-- Number of 64-bit values per output block of the dieharder example. -/
def block_size : Nat := 1024

/-- The inner `for` loop of `write_random_bytes_to_stdout`: generate
`n` successive generator outputs, returned in order together with the
final generator state. -/
def genBlock {σ : Type} (next : σ → Nat × σ) : Nat → σ → List Nat × σ
  | 0, g => ([], g)
  | n + 1, g =>
    let r := next g
    let rest := genBlock next n r.2
    (r.1 :: rest.1, rest.2)


/-- The `while (written < bytes)` loop of
`write_random_bytes_to_stdout`: each iteration emits one block of
`block_size` 64-bit values (`8 * block_size` bytes) and advances the
64-bit byte counter, which wraps modulo `2 ^ 64` exactly like the
`uint64_t` counter `written` in the source.  The loop need not
terminate, so it is modelled with fuel bounding the number of
iterations that may be unfolded: `some` is the loop's result when it
exits within that many iterations, `none` means it has not yet
exited. -/
def writeLoop {σ : Type} (next : σ → Nat × σ) (bytes : Nat) :
    Nat → σ → Nat → List Nat → Option (List Nat × Nat)
  | 0, _, written, out => if written < bytes then none else some (out, written)
  | fuel + 1, g, written, out =>
    if written < bytes then
      writeLoop next bytes fuel (genBlock next block_size g).2
        ((written + 8 * block_size) % U64)
        (out ++ (genBlock next block_size g).1)
    else some (out, written)

/-- The template function `write_random_bytes_to_stdout<Rng>(seed,
bytes)`: construct the generator from the seed and run the write loop
with byte counter 0 and no output, unfolding at most `fuel`
iterations. -/
def write_random_bytes_to_stdout {σ : Type} (next : σ → Nat × σ)
    (mk : Nat → σ) (seed bytes fuel : Nat) : Option (List Nat × Nat) :=
  writeLoop next bytes fuel (mk seed) 0 []

lemma genBlock_length {σ : Type} (next : σ → Nat × σ) :
    ∀ n g, ((genBlock next n g).1).length = n := by
  intro n
  induction n with
  | zero => intro g; rfl
  | succ n ih =>
    intro g
    simp [genBlock, ih]

/-- With the request `2 ^ 64 - 1`, the loop never exits: the wrapping
counter only ever holds multiples of 8192 below `2 ^ 64`, all of which
are smaller than the request. -/
lemma writeLoop_diverges {σ : Type} (next : σ → Nat × σ) :
    ∀ fuel (g : σ) written out, written % 8192 = 0 → written < 2 ^ 64 →
      writeLoop next (2 ^ 64 - 1) fuel g written out = none := by
  intro fuel
  induction fuel with
  | zero =>
    intro g written out h1 h2
    rw [writeLoop, if_pos (by omega)]
  | succ fuel ih =>
    intro g written out h1 h2
    rw [writeLoop, if_pos (by omega)]
    apply ih
    · simp only [block_size, U64]
      omega
    · simp only [block_size, U64]
      exact Nat.mod_lt _ (by norm_num)

/-- C10 counterexample: at the requested byte count `2 ^ 64 - 1` — a
legal value of the `uint64_t` parameter — the byte-dump routine never
exits for any number of loop iterations, so it does not write the
least multiple of 8192 at or above the request (which would be
`2 ^ 64`, unreachable by the wrapping counter). -/
theorem write_random_bytes_diverges :
    ¬ ∃ fuel r, write_random_bytes_to_stdout SplitMix64.next SplitMix64.mk 123
        (2 ^ 64 - 1) fuel = some r := by
  rintro ⟨fuel, r, h⟩
  rw [write_random_bytes_to_stdout,
    writeLoop_diverges SplitMix64.next fuel (SplitMix64.mk 123) 0 [] (by norm_num)
      (by norm_num)] at h
  cases h

/-- As long as the request is at most `2 ^ 64 - 8192`, the counter
never wraps, the loop exits once given enough fuel, and the final
counter is the least multiple of 8192 at or above the request. -/
lemma writeLoop_exits {σ : Type} (next : σ → Nat × σ) :
    ∀ fuel bytes (g : σ) written out,
      written % 8192 = 0 → bytes ≤ 2 ^ 64 - 8192 → bytes ≤ written + 8192 * fuel →
      ∃ l, writeLoop next bytes fuel g written out =
          some (l, if written < bytes
            then written + 8192 * ((bytes - written + 8191) / 8192) else written) ∧
        l.length * 8 + written =
          out.length * 8 + (if written < bytes
            then written + 8192 * ((bytes - written + 8191) / 8192) else written) := by
  intro fuel
  induction fuel with
  | zero =>
    intro bytes g written out h1 h2 h3
    have hnlt : ¬ written < bytes := by omega
    rw [if_neg hnlt]
    exact ⟨out, by rw [writeLoop, if_neg hnlt], rfl⟩
  | succ fuel ih =>
    intro bytes g written out h1 h2 h3
    by_cases hlt : written < bytes
    · have hwrap : (written + 8 * block_size) % U64 = written + 8192 := by
        simp only [block_size, U64]
        omega
      obtain ⟨l, heq, hlen⟩ := ih bytes (genBlock next block_size g).2 (written + 8192)
        (out ++ (genBlock next block_size g).1) (by omega) h2 (by omega)
      have hW : (if written + 8192 < bytes
            then written + 8192 + 8192 * ((bytes - (written + 8192) + 8191) / 8192)
            else written + 8192) =
          written + 8192 * ((bytes - written + 8191) / 8192) := by
        split
        · omega
        · omega
      rw [if_pos hlt]
      refine ⟨l, ?_, ?_⟩
      · rw [writeLoop, if_pos hlt, hwrap, heq, hW]
      · rw [hW, List.length_append, genBlock_length] at hlen
        simp only [block_size] at hlen
        omega
    · rw [if_neg hlt]
      exact ⟨out, by rw [writeLoop, if_neg hlt], rfl⟩

/-- C10 (amended): for every seed and every requested byte count of at
most `2 ^ 64 - 8192`, given fuel for at least ceil(b / 8192)
iterations, the byte-dump routine exits having emitted whole blocks of
1024 64-bit values, and the number of bytes written is the least
multiple of 8192 at or above the request — it can exceed the request,
and a request of 0 writes nothing.  For the remaining 64-bit requests
the loop never exits. -/
theorem write_random_bytes_spec {σ : Type} (next : σ → Nat × σ)
    (mk : Nat → σ) (seed b fuel : Nat)
    (hb : b ≤ 2 ^ 64 - 8192) (hfuel : b ≤ 8192 * fuel) :
    ∃ l w, write_random_bytes_to_stdout next mk seed b fuel = some (l, w) ∧
      w = 8192 * ((b + 8191) / 8192) ∧
      b ≤ w ∧ w % 8192 = 0 ∧
      (∀ m, b ≤ 8192 * m → w ≤ 8192 * m) ∧
      (b = 0 → l = [] ∧ w = 0) ∧
      l.length * 8 = w := by
  obtain ⟨l, heq, hlen⟩ := writeLoop_exits next fuel b (mk seed) 0 []
    (by omega) hb (by omega)
  simp only [List.length_nil] at hlen
  have hWeq : (if 0 < b then 0 + 8192 * ((b - 0 + 8191) / 8192) else 0) =
      8192 * ((b + 8191) / 8192) := by
    split
    · omega
    · omega
  rw [hWeq] at heq hlen
  refine ⟨l, 8192 * ((b + 8191) / 8192), heq, rfl, by omega, by omega,
    fun m hm => by omega, fun hb0 => ⟨List.length_eq_zero.mp (by omega), by omega⟩,
    by omega⟩

/-- Witness for C10 at request 1 with one unit of fuel and the
SplitMix64 generator. -/
theorem write_random_bytes_spec_witness :
    ∃ l w, write_random_bytes_to_stdout SplitMix64.next SplitMix64.mk 123 1 1 =
        some (l, w) ∧
      w = 8192 * ((1 + 8191) / 8192) ∧
      1 ≤ w ∧ w % 8192 = 0 ∧
      (∀ m, 1 ≤ 8192 * m → w ≤ 8192 * m) ∧
      (1 = 0 → l = [] ∧ w = 0) ∧
      l.length * 8 = w :=
  write_random_bytes_spec SplitMix64.next SplitMix64.mk 123 1 1 (by norm_num) (by norm_num)

end dfe
